import Mathlib

/-!
Verification development for `bi_utils/utils.py` (Flaconi/bi-utils).

The file shallowly embeds the string-building core of
`merge_tmp_into_target_tbl` (utils.py lines 147-205) and
`print_merge_query` (lines 353-389), the staging-location defaults,
the effect traces of both routines, and the `deployment` gate
(lines 66-122).  Python `str` values are modelled as Lean `String`
(a list of characters, matching Python's code-point view); Python
`str.strip` / `str.split` / `str.join` / slicing are modelled by
executable character-level functions below.  The `.format` call on the
final query template is modelled by substituting the schema/table
names directly at the (unique) places the placeholders occur.
-/

namespace BiUtils

/-- Python `str.strip()` on a list of characters: drop leading and
trailing whitespace. -/
def stripChars (l : List Char) : List Char :=
  (((l.dropWhile Char.isWhitespace).reverse).dropWhile Char.isWhitespace).reverse

/-- Python `str.strip()`. -/
def pyStrip (s : String) : String :=
  String.mk (stripChars s.data)

/-- Python `str.split(sep)` for a one-character separator, on the
character list: always returns at least one (possibly empty) chunk. -/
def splitOnChar (c : Char) : List Char → List (List Char)
  | [] => [[]]
  | a :: as =>
    match splitOnChar c as with
    | [] => [[]]
    | b :: bs => if a = c then [] :: b :: bs else (a :: b) :: bs

/-- Python `s.split(c)` for a one-character separator `c`. -/
def pySplit (c : Char) (s : String) : List String :=
  (splitOnChar c s.data).map String.mk

/-- Python `sep.join(l)`. -/
def pyJoin (sep : String) : List String → String
  | [] => ""
  | [x] => x
  | x :: xs => x ++ sep ++ pyJoin sep xs

/-- Plain concatenation of a list of strings. -/
def joinAll : List String → String
  | [] => ""
  | x :: xs => x ++ joinAll xs

/-- Python slicing `s[:-n]`: drop the final `n` characters (empty when
`s` is shorter than `n`). -/
def pyDropLast (s : String) (n : Nat) : String :=
  String.mk (s.data.take (s.data.length - n))

/-- utils.py line 174 / 365:
`pk_columns_list = [str(item).strip() for item in pk_columns.split(',')]`. -/
def parsePk (pk_columns : String) : List String :=
  (pySplit ',' pk_columns).map pyStrip

/-- The equality text `target_tbl."col" = tmp."col"` used in the ON
clause (line 177) and in the UPDATE SET clause (lines 180 and 189). -/
def eqAssign (col : String) : String :=
  "target_tbl.\"" ++ col ++ "\" = tmp.\"" ++ col ++ "\""

/-- A double-quoted identifier, as in the INSERT column list. -/
def quoteIdent (col : String) : String :=
  "\"" ++ col ++ "\""

/-- A staging-qualified column reference `tmp."col"`, as in the VALUES
list. -/
def tmpQual (col : String) : String :=
  "tmp.\"" ++ col ++ "\""

/-- utils.py lines 183-186 / 374-376: the dataframe columns are
stripped in place and the columns to merge are those not among
`pk_columns_list + ["INSERT_TIMESTAMP", "UPDATE_TIMESTAMP"]`. -/
def colsMerge (dfCols : List String) (pk_columns : String) : List String :=
  let pk_columns_list := parsePk pk_columns
  let cols_not_to_merge := pk_columns_list ++ ["INSERT_TIMESTAMP", "UPDATE_TIMESTAMP"]
  (dfCols.map pyStrip).filter (fun col => !(cols_not_to_merge.contains col))

/-- The ordered column list of the generated INSERT clause (lines
192-197 / 381-386): the two reserved timestamp columns, then the
primary-key columns, then the remaining columns. -/
def insertCols (dfCols : List String) (pk_columns : String) : List String :=
  "INSERT_TIMESTAMP" :: "UPDATE_TIMESTAMP" :: (parsePk pk_columns ++ colsMerge dfCols pk_columns)

/-- The ordered list of columns set by the generated UPDATE SET clause
(lines 180-189 / 371-378). -/
def updateSetCols (dfCols : List String) (pk_columns : String) : List String :=
  "UPDATE_TIMESTAMP" :: colsMerge dfCols pk_columns

/-- utils.py lines 174-199 (and, identically, 365-388): the text of the
MERGE statement, with the `.format` substitution of lines 200-201 / 389
applied (the four placeholders occur exactly once each, in the header
written at line 175/366). -/
def mergeQueryText (dfCols : List String) (pk_columns schema tbl schema_tmp tbl_tmp : String) :
    String :=
  -- line 174: pk_columns_list = [str(item).strip() for item in pk_columns.split(',')]
  let pk_columns_list := parsePk pk_columns
  -- line 175: merge_query = 'MERGE INTO {schema}.{tbl} target_tbl USING {schema_tmp}.{tbl_tmp} tmp ON ('
  let q0 := "MERGE INTO " ++ schema ++ "." ++ tbl ++ " target_tbl USING " ++ schema_tmp
      ++ "." ++ tbl_tmp ++ " tmp ON ("
  -- lines 176-177: for i in pk_columns_list: merge_query += 'target_tbl."' + i + '" = tmp."' + i + '" AND '
  let q1 := pk_columns_list.foldl (fun q i => q ++ (eqAssign i ++ " AND ")) q0
  -- line 179: merge_query = merge_query[:-5] + ') '
  let q2 := pyDropLast q1 5 ++ ") "
  -- line 180: merge_query += 'WHEN MATCHED THEN UPDATE SET target_tbl."UPDATE_TIMESTAMP" = tmp."UPDATE_TIMESTAMP"'
  let q3 := q2 ++ ("WHEN MATCHED THEN UPDATE SET " ++ eqAssign "UPDATE_TIMESTAMP")
  -- lines 183-186: cols_merge (dataframe columns stripped, PK/reserved columns removed)
  let cols_merge := colsMerge dfCols pk_columns
  -- lines 188-189: for i in cols_merge: merge_query += ', target_tbl."' + i.strip() + '" = tmp."' + i.strip() + '"'
  let q4 := cols_merge.foldl (fun q i => q ++ (", " ++ eqAssign (pyStrip i))) q3
  -- lines 192-194
  let q5 := q4 ++ (" WHEN NOT MATCHED THEN INSERT (" ++ quoteIdent "INSERT_TIMESTAMP" ++ ", "
      ++ quoteIdent "UPDATE_TIMESTAMP" ++ ", ")
      ++ "\"" ++ pyJoin "\", \"" (pk_columns_list ++ cols_merge) ++ "\""
      ++ (") VALUES (" ++ tmpQual "INSERT_TIMESTAMP" ++ ", " ++ tmpQual "UPDATE_TIMESTAMP")
  -- lines 196-197: for i in pk_columns_list + cols_merge: merge_query += ', tmp."' + i.strip() + '"'
  let q6 := (pk_columns_list ++ cols_merge).foldl (fun q i => q ++ (", " ++ tmpQual (pyStrip i))) q5
  -- line 199: merge_query += ');'
  q6 ++ ");"

/-- utils.py lines 365-388: the statement text built by
`print_merge_query`, written out from that function's own body (its
lines are textually identical to lines 174-199). -/
def printMergeQueryText (dfCols : List String) (pk_columns schema tbl schema_tmp tbl_tmp : String) :
    String :=
  let pk_columns_list := parsePk pk_columns
  let q0 := "MERGE INTO " ++ schema ++ "." ++ tbl ++ " target_tbl USING " ++ schema_tmp
      ++ "." ++ tbl_tmp ++ " tmp ON ("
  let q1 := pk_columns_list.foldl (fun q i => q ++ (eqAssign i ++ " AND ")) q0
  let q2 := pyDropLast q1 5 ++ ") "
  let q3 := q2 ++ ("WHEN MATCHED THEN UPDATE SET " ++ eqAssign "UPDATE_TIMESTAMP")
  let cols_merge := colsMerge dfCols pk_columns
  let q4 := cols_merge.foldl (fun q i => q ++ (", " ++ eqAssign (pyStrip i))) q3
  let q5 := q4 ++ (" WHEN NOT MATCHED THEN INSERT (" ++ quoteIdent "INSERT_TIMESTAMP" ++ ", "
      ++ quoteIdent "UPDATE_TIMESTAMP" ++ ", ")
      ++ "\"" ++ pyJoin "\", \"" (pk_columns_list ++ cols_merge) ++ "\""
      ++ (") VALUES (" ++ tmpQual "INSERT_TIMESTAMP" ++ ", " ++ tmpQual "UPDATE_TIMESTAMP")
  let q6 := (pk_columns_list ++ cols_merge).foldl (fun q i => q ++ (", " ++ tmpQual (pyStrip i))) q5
  q6 ++ ");"

/-- utils.py lines 165-166: `tmp_table = exasol_table if temp_tbl is None
else temp_tbl; tmp_schema = exasol_schema + "_TMP" if temp_schema is None
else temp_schema`, returned as (schema, table). -/
def tmpLocationMerge (exasol_schema exasol_table : String)
    (temp_schema temp_tbl : Option String) : String × String :=
  let tmp_table := match temp_tbl with | none => exasol_table | some t => t
  let tmp_schema := match temp_schema with | none => exasol_schema ++ "_TMP" | some s => s
  (tmp_schema, tmp_table)

/-- utils.py lines 362-363: the identical computation inside
`print_merge_query`. -/
def tmpLocationPrint (exasol_schema exasol_table : String)
    (temp_schema temp_tbl : Option String) : String × String :=
  let tmp_table := match temp_tbl with | none => exasol_table | some t => t
  let tmp_schema := match temp_schema with | none => exasol_schema ++ "_TMP" | some s => s
  (tmp_schema, tmp_table)

/-- A pandas dataframe, reduced to what the code observes: an ordered
list of column labels and the row data. -/
structure DataFrame where
  cols : List String
  rows : List (List String)
deriving DecidableEq, Repr

/-- One observable interaction of the routines with the outside world:
a pyexasol `execute`, `import_from_pandas`, `export_to_pandas`, a
connection, or a `print`. -/
inductive DbAction where
  | execute (sql : String)
  | importDf (df : DataFrame) (loc : String × String)
  | exportDf (sql : String)
  | connect
  | printOut (s : String)
deriving DecidableEq, Repr

/-- utils.py line 168: the TRUNCATE statement text. -/
def truncateSqlText (tmp_schema tmp_table : String) : String :=
  "TRUNCATE TABLE " ++ tmp_schema ++ "." ++ tmp_table

/-- utils.py lines 202-203: the verification count query (an f-string
spanning two lines; the embedded newline and 36-space indentation are
part of the literal). -/
def countQueryText (exasol_schema exasol_table : String) : String :=
  "SELECT COUNT(*) AS COUNT_ROWS FROM " ++ exasol_schema ++ "." ++ exasol_table ++ " \n"
    ++ "                                    WHERE TO_DATE(UPDATE_TIMESTAMP) = CURRENT_DATE;"

/-- utils.py lines 147-205, `merge_tmp_into_target_tbl`, as a trace
semantics.  The function body contains no `try`/`except`, so a raised
exception aborts the remaining statements and propagates; this is
modelled by a failure oracle `fails` deciding whether the k-th external
call (0 = truncate, 1 = bulk load, 2 = merge execute, 3 = count query)
raises.  The result is the list of calls actually attempted, the final
state of the caller's dataframe (its column labels are stripped in
place at line 185, between the bulk load and the merge execute), and
`Except.error k` for the raising call, if any. -/
def mergeTmpIntoTargetTbl (fails : Nat → Bool) (df : DataFrame)
    (pk_columns exasol_schema exasol_table : String)
    (temp_schema temp_tbl : Option String) :
    List DbAction × DataFrame × Except Nat Unit :=
  let loc := tmpLocationMerge exasol_schema exasol_table temp_schema temp_tbl
  -- line 168: connection.execute('TRUNCATE TABLE {}.{}')
  let a0 := DbAction.execute (truncateSqlText loc.1 loc.2)
  if fails 0 then ([a0], df, Except.error 0) else
  -- line 170: connection.import_from_pandas(dataframe, (tmp_schema, tmp_table))
  let a1 := DbAction.importDf df loc
  if fails 1 then ([a0, a1], df, Except.error 1) else
  -- line 185: dataframe.columns = dataframe.columns.str.strip()  (in-place)
  let df2 : DataFrame := { cols := df.cols.map pyStrip, rows := df.rows }
  -- lines 174-201: build the statement and execute it
  let a2 := DbAction.execute (mergeQueryText df.cols pk_columns exasol_schema exasol_table loc.1 loc.2)
  if fails 2 then ([a0, a1, a2], df2, Except.error 2) else
  -- lines 202-203: check_df = connection.export_to_pandas(...)
  let a3 := DbAction.exportDf (countQueryText exasol_schema exasol_table)
  if fails 3 then ([a0, a1, a2, a3], df2, Except.error 3) else
  ([a0, a1, a2, a3], df2, Except.ok ())

/-- utils.py lines 353-389, `print_merge_query`, as a trace: it
connects, fetches the staging table's current contents (whose column
labels are `fetchedCols`), and prints the statement text; it executes
nothing else. -/
def printMergeQuery (fetchedCols : List String)
    (pk_columns exasol_schema exasol_table : String)
    (temp_schema temp_tbl : Option String) : List DbAction :=
  let loc := tmpLocationPrint exasol_schema exasol_table temp_schema temp_tbl
  [DbAction.connect,
   -- line 364: dataframe = connection.export_to_pandas(f"SELECT * FROM {tmp_schema}.{tmp_table}")
   DbAction.exportDf ("SELECT * FROM " ++ loc.1 ++ "." ++ loc.2),
   -- lines 365-389: build the same statement text and print it
   DbAction.printOut (printMergeQueryText fetchedCols pk_columns exasol_schema exasol_table loc.1 loc.2)]

/-- Whether `deployment` returns control to the calling script or exits
it (`exit()` raises `SystemExit`, which the surrounding
`except Exception` clause does not catch). -/
inductive DeployOutcome where
  | runs
  | exits
deriving DecidableEq, Repr

/-- utils.py lines 86-122: the `if`/`elif` cascade of `deployment`,
branch for branch; a fall-through (no branch matches) returns
normally. -/
def deployment (env : Option String) (prod dev : Bool) : DeployOutcome :=
  if prod = false ∧ dev = false ∧ env = none then DeployOutcome.exits
  else if prod = false ∧ dev = false ∧ env = some "prod" then DeployOutcome.exits
  else if prod = false ∧ dev = false ∧ env = some "dev" then DeployOutcome.exits
  else if env = none then DeployOutcome.runs
  else if prod = true ∧ dev = true ∧ env = some "prod" then DeployOutcome.runs
  else if prod = true ∧ dev = true ∧ env = some "dev" then DeployOutcome.runs
  else if prod = true ∧ dev = false ∧ env = some "prod" then DeployOutcome.runs
  else if prod = true ∧ dev = false ∧ env = some "dev" then DeployOutcome.exits
  else if prod = false ∧ dev = true ∧ env = some "dev" then DeployOutcome.runs
  else if prod = false ∧ dev = true ∧ env = some "prod" then DeployOutcome.exits
  else DeployOutcome.runs

/-- One step of a left-to-right scan that collects the contents of the
double-quoted substrings of a string: the state is the partially read
quoted chunk (reversed), if the scan is inside quotes, together with
the chunks collected so far. -/
def scanStep (st : Option (List Char) × List String) (c : Char) :
    Option (List Char) × List String :=
  match st.1 with
  | none => if c = '"' then (some [], st.2) else (none, st.2)
  | some cur =>
    if c = '"' then (none, st.2 ++ [String.mk cur.reverse]) else (some (c :: cur), st.2)

/-- Collect, in order, the contents of the double-quoted substrings of
`s`.  Applied to the column list of the generated INSERT clause this
recovers the ordered column list. -/
def extractQuoted (s : String) : List String :=
  (s.data.foldl scanStep (none, [])).2

/-- Surround a string with a given (leading, trailing) padding pair. -/
def padWith (p : String × String) (s : String) : String :=
  p.1 ++ s ++ p.2

/-- All characters of `s` are whitespace. -/
def isWsOnly (s : String) : Bool :=
  s.data.all Char.isWhitespace

/-! ### Basic facts about the Python-string primitives -/

theorem str_ext {a b : String} (h : a.data = b.data) : a = b :=
  congrArg String.mk h

theorem dropWhile_self (p : α → Bool) (l : List α) :
    (l.dropWhile p).dropWhile p = l.dropWhile p := by
  induction l with
  | nil => rfl
  | cons a l ih =>
    cases hpa : p a with
    | true => simp [List.dropWhile_cons, hpa, ih]
    | false => simp [List.dropWhile_cons, hpa]

theorem dropWhile_head_false {p : α → Bool} {l : List α} {x : α} {xs : List α}
    (h : l.dropWhile p = x :: xs) : p x = false := by
  have := List.head_dropWhile_not p l (by simp [h])
  simpa [h] using this

theorem dropWhile_eq_self_of_pref {p : α → Bool} {l r : List α}
    (h : r <+: l.dropWhile p) : r.dropWhile p = r := by
  cases hr : r with
  | nil => rfl
  | cons x r2 =>
    rw [hr] at h
    obtain ⟨u, hu⟩ := h
    have hx : p x = false :=
      dropWhile_head_false (show l.dropWhile p = x :: (r2 ++ u) from by rw [← hu]; simp)
    simp [List.dropWhile_cons, hx]

theorem stripChars_pref_dropWhile (l : List Char) :
    stripChars l <+: l.dropWhile Char.isWhitespace := by
  unfold stripChars
  have hsuf : (l.dropWhile Char.isWhitespace).reverse.dropWhile Char.isWhitespace
      <:+ (l.dropWhile Char.isWhitespace).reverse := List.dropWhile_suffix _
  have := List.reverse_prefix.mpr hsuf
  simpa using this

theorem stripChars_idem (l : List Char) : stripChars (stripChars l) = stripChars l := by
  have hA := dropWhile_eq_self_of_pref (stripChars_pref_dropWhile l)
  have hrev : (stripChars l).reverse
      = (l.dropWhile Char.isWhitespace).reverse.dropWhile Char.isWhitespace := by
    rw [stripChars, List.reverse_reverse]
  conv_lhs => rw [stripChars]
  rw [hA, hrev, dropWhile_self]
  rfl

theorem pyStrip_idem (s : String) : pyStrip (pyStrip s) = pyStrip s := by
  unfold pyStrip
  exact congrArg String.mk (stripChars_idem s.data)

theorem dropWhile_append_of_all {p : α → Bool} {l₁ : List α} (l₂ : List α)
    (h : ∀ a ∈ l₁, p a = true) : (l₁ ++ l₂).dropWhile p = l₂.dropWhile p := by
  induction l₁ with
  | nil => rfl
  | cons a l ih =>
    have ha : p a = true := h a (by simp)
    simp only [List.cons_append, List.dropWhile_cons, ha, if_true]
    exact ih (fun x hx => h x (by simp [hx]))

theorem dropWhile_append_of_ne_nil {p : α → Bool} {l₁ : List α} (l₂ : List α)
    (h : l₁.dropWhile p ≠ []) : (l₁ ++ l₂).dropWhile p = l₁.dropWhile p ++ l₂ := by
  induction l₁ with
  | nil => simp at h
  | cons a l ih =>
    cases hpa : p a with
    | true =>
      have h2 : l.dropWhile p ≠ [] := by simpa [List.dropWhile_cons, hpa] using h
      simp [List.cons_append, List.dropWhile_cons, hpa, ih h2]
    | false => simp [List.cons_append, List.dropWhile_cons, hpa]

theorem dropWhile_eq_nil_of_all {p : α → Bool} {l : List α}
    (h : ∀ a ∈ l, p a = true) : l.dropWhile p = [] := by
  induction l with
  | nil => rfl
  | cons a l ih =>
    simp [List.dropWhile_cons, h a (by simp), ih (fun x hx => h x (by simp [hx]))]

theorem stripChars_pad (w w' l : List Char)
    (hw : ∀ c ∈ w, Char.isWhitespace c = true)
    (hw' : ∀ c ∈ w', Char.isWhitespace c = true) :
    stripChars (w ++ l ++ w') = stripChars l := by
  unfold stripChars
  rw [List.append_assoc, dropWhile_append_of_all _ hw]
  by_cases hd : l.dropWhile Char.isWhitespace = []
  · have hl2 : (l ++ w').dropWhile Char.isWhitespace = [] := by
      have hall : ∀ a ∈ l, Char.isWhitespace a = true := by
        intro a ha
        exact List.dropWhile_eq_nil_iff.mp hd a ha
      rw [dropWhile_append_of_all _ hall]
      exact dropWhile_eq_nil_of_all hw'
    rw [hl2, hd]
  · rw [dropWhile_append_of_ne_nil _ hd, List.reverse_append,
      dropWhile_append_of_all _ (fun c hc => hw' c (List.mem_reverse.mp hc))]

theorem pyStrip_pad (p : String × String) (s : String)
    (h1 : isWsOnly p.1 = true) (h2 : isWsOnly p.2 = true) :
    pyStrip (padWith p s) = pyStrip s := by
  unfold pyStrip padWith
  refine congrArg String.mk ?_
  have hdata : (p.1 ++ s ++ p.2).data = p.1.data ++ s.data ++ p.2.data := by
    simp [String.data_append]
  rw [hdata]
  refine stripChars_pad _ _ _ ?_ ?_
  · intro c hc
    exact List.all_eq_true.mp h1 c hc
  · intro c hc
    exact List.all_eq_true.mp h2 c hc

/-! ### Splitting and joining -/

theorem splitOnChar_ne_nil (c : Char) (l : List Char) : splitOnChar c l ≠ [] := by
  induction l with
  | nil => simp [splitOnChar]
  | cons a as ih =>
    simp only [splitOnChar]
    cases hs : splitOnChar c as with
    | nil => simp
    | cons b bs =>
      by_cases hac : a = c <;> simp [hac]

theorem splitOnChar_not_mem {c : Char} {l : List Char} (h : c ∉ l) :
    splitOnChar c l = [l] := by
  induction l with
  | nil => rfl
  | cons a as ih =>
    have hac : ¬ a = c := fun he => h (by simp [he])
    have has : c ∉ as := fun hm => h (by simp [hm])
    simp only [splitOnChar, ih has]
    simp [hac]

theorem splitOnChar_append {c : Char} {x : List Char} (ys : List Char) (h : c ∉ x) :
    splitOnChar c (x ++ c :: ys) = x :: splitOnChar c ys := by
  induction x with
  | nil =>
    cases hy : splitOnChar c ys with
    | nil => exact absurd hy (splitOnChar_ne_nil c ys)
    | cons b bs => simp [splitOnChar, hy]
  | cons a x2 ih =>
    have hac : ¬ a = c := fun he => h (by simp [he])
    have hx2 : c ∉ x2 := fun hm => h (by simp [hm])
    have ih2 := ih hx2
    show (match splitOnChar c (x2 ++ c :: ys) with
      | [] => ([[]] : List (List Char))
      | b :: bs => if a = c then [] :: b :: bs else (a :: b) :: bs)
      = (a :: x2) :: splitOnChar c ys
    rw [ih2]
    simp [hac]

theorem mem_splitOnChar {c : Char} {l x : List Char} (hx : x ∈ splitOnChar c l) :
    c ∉ x := by
  induction l generalizing x with
  | nil =>
    simp [splitOnChar] at hx
    simp [hx]
  | cons a as ih =>
    simp only [splitOnChar] at hx
    cases hs : splitOnChar c as with
    | nil => exact absurd hs (splitOnChar_ne_nil c as)
    | cons b bs =>
      rw [hs] at hx
      by_cases hac : a = c
      · simp [hac] at hx
        rcases hx with hx | hx | hx
        · simp [hx]
        · exact ih (by rw [hs]; simp [hx])
        · exact ih (by rw [hs]; simp [hx])
      · simp [hac] at hx
        rcases hx with hx | hx
        · have hb : c ∉ b := ih (by rw [hs]; simp)
          intro hmem
          rw [hx] at hmem
          rcases List.mem_cons.mp hmem with he | hm
          · exact hac he.symm
          · exact hb hm
        · exact ih (by rw [hs]; simp [hx])

theorem mem_pySplit {c : Char} {pk s : String} (h : s ∈ pySplit c pk) : c ∉ s.data := by
  unfold pySplit at h
  obtain ⟨chunk, hchunk, rfl⟩ := List.mem_map.mp h
  exact mem_splitOnChar hchunk

theorem pySplit_ne_nil (c : Char) (s : String) : pySplit c s ≠ [] := by
  unfold pySplit
  intro h
  exact splitOnChar_ne_nil c s.data (List.map_eq_nil_iff.mp h)

theorem parsePk_ne_nil (pk : String) : parsePk pk ≠ [] := by
  unfold parsePk
  intro h
  exact pySplit_ne_nil ',' pk (List.map_eq_nil_iff.mp h)

theorem pySplit_pyJoin (parts : List String) (hne : parts ≠ [])
    (h : ∀ s ∈ parts, (',' : Char) ∉ s.data) :
    pySplit ',' (pyJoin "," parts) = parts := by
  induction parts with
  | nil => exact absurd rfl hne
  | cons x xs ih =>
    cases xs with
    | nil =>
      show pySplit ',' x = [x]
      unfold pySplit
      rw [splitOnChar_not_mem (h x (by simp))]
      rfl
    | cons y ys =>
      have hxs : pyJoin "," (x :: y :: ys) = x ++ "," ++ pyJoin "," (y :: ys) := rfl
      have hdata : (x ++ "," ++ pyJoin "," (y :: ys)).data
          = x.data ++ ',' :: (pyJoin "," (y :: ys)).data := by
        simp [String.data_append]
      unfold pySplit
      rw [hxs, hdata, splitOnChar_append _ (h x (by simp))]
      have ih2 := ih (by simp) (fun s hs => h s (by simp [hs]))
      unfold pySplit at ih2
      simp only [List.map_cons]
      rw [ih2]

/-! ### Folds of string appends -/

theorem foldl_append_eq (g : String → String) (l : List String) :
    ∀ a : String, List.foldl (fun q i => q ++ g i) a l = a ++ joinAll (l.map g) := by
  induction l with
  | nil => intro a; simp [joinAll]
  | cons x xs ih =>
    intro a
    simp only [List.foldl_cons, List.map_cons, joinAll]
    rw [ih (a ++ g x), String.append_assoc]

theorem pyJoin_cons (sep x : String) (l : List String) :
    pyJoin sep (x :: l) = x ++ joinAll (l.map (fun y => sep ++ y)) := by
  induction l generalizing x with
  | nil => simp [pyJoin, joinAll]
  | cons y ys ih =>
    show x ++ sep ++ pyJoin sep (y :: ys) = _
    rw [ih y]
    simp [joinAll, String.append_assoc]

theorem pyJoin_cons_cons (sep a b : String) (l : List String) :
    pyJoin sep (a :: b :: l) = a ++ sep ++ pyJoin sep (b :: l) := rfl

theorem joinAll_sep_after (sep x : String) (l : List String) :
    joinAll ((x :: l).map (fun s => s ++ sep)) = pyJoin sep (x :: l) ++ sep := by
  induction l generalizing x with
  | nil => simp [joinAll, pyJoin]
  | cons y ys ih =>
    simp only [List.map_cons, joinAll] at ih ⊢
    rw [ih y, pyJoin_cons_cons]
    simp only [String.append_assoc]

theorem pyJoin_quote (x : String) (l : List String) :
    pyJoin ", " ((x :: l).map quoteIdent) = "\"" ++ pyJoin "\", \"" (x :: l) ++ "\"" := by
  induction l generalizing x with
  | nil => rfl
  | cons y ys ih =>
    have hlit : ("\", \"" : String) = "\"" ++ ", " ++ "\"" := rfl
    simp only [List.map_cons] at ih ⊢
    rw [pyJoin_cons_cons, pyJoin_cons_cons, ih y, hlit]
    simp only [quoteIdent, String.append_assoc]

theorem pyDropLast_append (x y : String) : pyDropLast (x ++ y) y.data.length = x := by
  unfold pyDropLast
  rw [String.data_append, List.length_append, Nat.add_sub_cancel, List.take_left]

theorem parsePk_strip {pk i : String} (h : i ∈ parsePk pk) : pyStrip i = i := by
  unfold parsePk at h
  obtain ⟨j, hj, rfl⟩ := List.mem_map.mp h
  exact pyStrip_idem j

theorem colsMerge_strip {dfCols : List String} {pk i : String}
    (h : i ∈ colsMerge dfCols pk) : pyStrip i = i := by
  unfold colsMerge at h
  have h2 := (List.mem_filter.mp h).1
  obtain ⟨j, hj, rfl⟩ := List.mem_map.mp h2
  exact pyStrip_idem j

/-! ### Structure of the generated MERGE statement -/

/-- The generated statement decomposes into header, ON conjunction,
UPDATE SET assignment list, INSERT column list and VALUES list, each a
separator-join over the corresponding ordered column list. -/
theorem mergeQueryText_decomp (dfCols : List String) (pk s t ts tt : String) :
    mergeQueryText dfCols pk s t ts tt =
      "MERGE INTO " ++ s ++ "." ++ t ++ " target_tbl USING " ++ ts ++ "." ++ tt ++ " tmp ON ("
        ++ pyJoin " AND " ((parsePk pk).map eqAssign) ++ ") "
        ++ ("WHEN MATCHED THEN UPDATE SET " ++ pyJoin ", " ((updateSetCols dfCols pk).map eqAssign))
        ++ (" WHEN NOT MATCHED THEN INSERT (" ++ pyJoin ", " ((insertCols dfCols pk).map quoteIdent))
        ++ (") VALUES (" ++ pyJoin ", " ((insertCols dfCols pk).map tmpQual))
        ++ ");" := by
  obtain ⟨x, l, hxl⟩ : ∃ x l, parsePk pk = x :: l := by
    cases hp : parsePk pk with
    | nil => exact absurd hp (parsePk_ne_nil pk)
    | cons x l => exact ⟨x, l, rfl⟩
  have hfold1 : ∀ a : String,
      List.foldl (fun q i => q ++ (eqAssign i ++ " AND ")) a (parsePk pk)
        = (a ++ pyJoin " AND " ((parsePk pk).map eqAssign)) ++ " AND " := by
    intro a
    rw [foldl_append_eq (fun i => eqAssign i ++ " AND ") (parsePk pk) a]
    have hmap : (parsePk pk).map (fun i => eqAssign i ++ " AND ")
        = ((parsePk pk).map eqAssign).map (fun s2 => s2 ++ " AND ") := by
      rw [List.map_map]; rfl
    rw [hmap, hxl]
    simp only [List.map_cons]
    have hsa := joinAll_sep_after " AND " (eqAssign x) (l.map eqAssign)
    simp only [List.map_cons] at hsa
    rw [hsa]
    simp only [String.append_assoc]
  have hdrop : ∀ b : String, pyDropLast (b ++ " AND ") 5 = b := by
    intro b
    have h5 : (" AND " : String).data.length = 5 := rfl
    rw [← h5, pyDropLast_append]
  have hfold2 : ∀ a : String,
      List.foldl (fun q i => q ++ (", " ++ eqAssign (pyStrip i))) a (colsMerge dfCols pk)
        = a ++ joinAll ((colsMerge dfCols pk).map (fun i => ", " ++ eqAssign i)) := by
    intro a
    rw [List.foldl_ext (fun q i => q ++ (", " ++ eqAssign (pyStrip i)))
        (fun q i => q ++ (", " ++ eqAssign i)) a
        (fun b i hi => by simp only [colsMerge_strip hi])]
    exact foldl_append_eq (fun i => ", " ++ eqAssign i) _ a
  have hstrip3 : ∀ i ∈ parsePk pk ++ colsMerge dfCols pk, pyStrip i = i := by
    intro i hi
    rcases List.mem_append.mp hi with h | h
    · exact parsePk_strip h
    · exact colsMerge_strip h
  have hfold3 : ∀ a : String,
      List.foldl (fun q i => q ++ (", " ++ tmpQual (pyStrip i))) a
          (parsePk pk ++ colsMerge dfCols pk)
        = a ++ joinAll ((parsePk pk ++ colsMerge dfCols pk).map (fun i => ", " ++ tmpQual i)) := by
    intro a
    rw [List.foldl_ext (fun q i => q ++ (", " ++ tmpQual (pyStrip i)))
        (fun q i => q ++ (", " ++ tmpQual i)) a
        (fun b i hi => by simp only [hstrip3 i hi])]
    exact foldl_append_eq (fun i => ", " ++ tmpQual i) _ a
  have hupd : pyJoin ", " ((updateSetCols dfCols pk).map eqAssign)
      = eqAssign "UPDATE_TIMESTAMP"
          ++ joinAll ((colsMerge dfCols pk).map (fun i => ", " ++ eqAssign i)) := by
    unfold updateSetCols
    rw [List.map_cons, pyJoin_cons, List.map_map]
    rfl
  obtain ⟨r, rs, hr⟩ : ∃ r rs, parsePk pk ++ colsMerge dfCols pk = r :: rs := by
    rw [hxl]; exact ⟨x, l ++ colsMerge dfCols pk, by simp⟩
  have hins : pyJoin ", " ((insertCols dfCols pk).map quoteIdent)
      = quoteIdent "INSERT_TIMESTAMP" ++ ", " ++ (quoteIdent "UPDATE_TIMESTAMP" ++ ", "
          ++ ("\"" ++ pyJoin "\", \"" (parsePk pk ++ colsMerge dfCols pk) ++ "\"")) := by
    unfold insertCols
    rw [hr]
    simp only [List.map_cons]
    rw [pyJoin_cons_cons, pyJoin_cons_cons]
    have hq := pyJoin_quote r rs
    simp only [List.map_cons] at hq
    rw [hq]
  have hval : pyJoin ", " ((insertCols dfCols pk).map tmpQual)
      = tmpQual "INSERT_TIMESTAMP" ++ ", " ++ (tmpQual "UPDATE_TIMESTAMP"
          ++ joinAll ((parsePk pk ++ colsMerge dfCols pk).map (fun i => ", " ++ tmpQual i))) := by
    unfold insertCols
    rw [List.map_cons, List.map_cons, pyJoin_cons_cons, pyJoin_cons, List.map_map]
    simp only [String.append_assoc]
    rfl
  simp only [mergeQueryText]
  rw [hfold1, hdrop, hfold2, hfold3, hupd, hins, hval]
  simp only [String.append_assoc]

/-- `print_merge_query` builds its statement by the same code as
`merge_tmp_into_target_tbl` (the two loops are line-for-line
identical), so the two text builders agree definitionally. -/
theorem printMergeQueryText_eq (dfCols : List String) (pk s t ts tt : String) :
    printMergeQueryText dfCols pk s t ts tt = mergeQueryText dfCols pk s t ts tt := rfl

theorem str_mk_data (s : String) : String.mk s.data = s := rfl

/-! ### Characterisation of the merged-column list -/

theorem colsMerge_filter (dfCols : List String) (pk : String) :
    colsMerge dfCols pk = (dfCols.map pyStrip).filter
      (fun c => !((parsePk pk).contains c) && !(c == "INSERT_TIMESTAMP")
        && !(c == "UPDATE_TIMESTAMP")) := by
  unfold colsMerge
  refine List.filter_congr ?_
  intro c hc
  by_cases h1 : c ∈ parsePk pk
  · simp [h1]
  · by_cases h2 : c = "INSERT_TIMESTAMP"
    · simp [h2]
    · by_cases h3 : c = "UPDATE_TIMESTAMP"
      · simp [h3]
      · simp [h1, h2, h3]

theorem mem_colsMerge {dfCols : List String} {pk c : String} (h : c ∈ colsMerge dfCols pk) :
    c ∉ parsePk pk ∧ c ≠ "INSERT_TIMESTAMP" ∧ c ≠ "UPDATE_TIMESTAMP" := by
  unfold colsMerge at h
  have h2 := (List.mem_filter.mp h).2
  simp at h2
  exact ⟨h2.1, h2.2.1, h2.2.2⟩

theorem ut_not_mem_colsMerge (dfCols : List String) (pk : String) :
    "UPDATE_TIMESTAMP" ∉ colsMerge dfCols pk :=
  fun h => (mem_colsMerge h).2.2 rfl

/-! ### Congruence: the statement text depends only on the stripped
dataframe columns and the parsed primary-key list -/

theorem colsMerge_congr {dfCols dfCols2 : List String} {pk pk2 : String}
    (h1 : dfCols.map pyStrip = dfCols2.map pyStrip) (h2 : parsePk pk = parsePk pk2) :
    colsMerge dfCols pk = colsMerge dfCols2 pk2 := by
  unfold colsMerge
  rw [h1, h2]

theorem mergeQueryText_congr {dfCols dfCols2 : List String} {pk pk2 : String}
    (s t ts tt : String)
    (h1 : dfCols.map pyStrip = dfCols2.map pyStrip) (h2 : parsePk pk = parsePk pk2) :
    mergeQueryText dfCols pk s t ts tt = mergeQueryText dfCols2 pk2 s t ts tt := by
  unfold mergeQueryText
  rw [colsMerge_congr h1 h2, h2]

/-! ### Whitespace padding is absorbed by the stripping -/

theorem zipWith_pad_strip : ∀ (pads : List (String × String)) (cols : List String),
    pads.length = cols.length →
    (∀ p ∈ pads, isWsOnly p.1 = true ∧ isWsOnly p.2 = true) →
    (List.zipWith padWith pads cols).map pyStrip = cols.map pyStrip := by
  intro pads
  induction pads with
  | nil =>
    intro cols h _
    cases cols with
    | nil => rfl
    | cons c cs => simp at h
  | cons p ps ih =>
    intro cols h hw
    cases cols with
    | nil => simp at h
    | cons c cs =>
      simp only [List.zipWith_cons_cons, List.map_cons]
      rw [pyStrip_pad p c (hw p (by simp)).1 (hw p (by simp)).2]
      rw [ih cs (by simpa using h) (fun q hq => hw q (by simp [hq]))]

theorem zipWith_pad_comma_free : ∀ (pads : List (String × String)) (parts : List String),
    (∀ p ∈ pads, isWsOnly p.1 = true ∧ isWsOnly p.2 = true) →
    (∀ x ∈ parts, (',' : Char) ∉ x.data) →
    ∀ y ∈ List.zipWith padWith pads parts, (',' : Char) ∉ y.data := by
  intro pads
  induction pads with
  | nil =>
    intro parts _ _ y hy
    simp at hy
  | cons p ps ih =>
    intro parts hw hp y hy
    cases parts with
    | nil => simp at hy
    | cons c cs =>
      simp only [List.zipWith_cons_cons] at hy
      rcases List.mem_cons.mp hy with hy | hy
      · rw [hy]
        intro hcm
        unfold padWith at hcm
        have hd : (p.1 ++ c ++ p.2).data = p.1.data ++ c.data ++ p.2.data := by
          simp [String.data_append]
        rw [hd] at hcm
        rcases List.mem_append.mp hcm with hm | hm
        · rcases List.mem_append.mp hm with hm2 | hm2
          · have := List.all_eq_true.mp (hw p (by simp)).1 ',' hm2
            simp at this
          · exact hp c (by simp) hm2
        · have := List.all_eq_true.mp (hw p (by simp)).2 ',' hm
          simp at this
      · exact ih cs (fun q hq => hw q (by simp [hq])) (fun q hq => hp q (by simp [hq])) y hy

theorem parsePk_padded (pk : String) (pkpads : List (String × String))
    (hl : pkpads.length = (pySplit ',' pk).length)
    (hw : ∀ p ∈ pkpads, isWsOnly p.1 = true ∧ isWsOnly p.2 = true) :
    parsePk (pyJoin "," (List.zipWith padWith pkpads (pySplit ',' pk))) = parsePk pk := by
  have hpne : pySplit ',' pk ≠ [] := pySplit_ne_nil ',' pk
  have hzl : (List.zipWith padWith pkpads (pySplit ',' pk)).length = (pySplit ',' pk).length := by
    rw [List.length_zipWith padWith pkpads (pySplit ',' pk), hl, Nat.min_self]
  have hzne : List.zipWith padWith pkpads (pySplit ',' pk) ≠ [] := by
    intro h0
    rw [h0] at hzl
    exact hpne (List.length_eq_zero.mp hzl.symm)
  have hcf : ∀ y ∈ List.zipWith padWith pkpads (pySplit ',' pk), (',' : Char) ∉ y.data :=
    zipWith_pad_comma_free pkpads (pySplit ',' pk) hw (fun x hx => mem_pySplit hx)
  show (pySplit ',' (pyJoin "," (List.zipWith padWith pkpads (pySplit ',' pk)))).map pyStrip
      = (pySplit ',' pk).map pyStrip
  rw [pySplit_pyJoin _ hzne hcf]
  exact zipWith_pad_strip pkpads (pySplit ',' pk) hl hw

/-! ### Recovering the column list from the INSERT clause -/

theorem scan_none (l : List Char) : ∀ (acc : List String), (∀ c ∈ l, c ≠ '"') →
    l.foldl scanStep (none, acc) = (none, acc) := by
  induction l with
  | nil => intro acc _; rfl
  | cons a as ih =>
    intro acc h
    have ha : ¬ a = '"' := h a (by simp)
    simp only [List.foldl_cons]
    rw [show scanStep (none, acc) a = (none, acc) from by simp [scanStep, ha]]
    exact ih acc (fun c hc => h c (by simp [hc]))

theorem scan_some (l : List Char) : ∀ (cur : List Char) (acc : List String),
    (∀ c ∈ l, c ≠ '"') →
    l.foldl scanStep (some cur, acc) = (some (l.reverse ++ cur), acc) := by
  induction l with
  | nil => intro cur acc _; simp
  | cons a as ih =>
    intro cur acc h
    have ha : ¬ a = '"' := h a (by simp)
    simp only [List.foldl_cons]
    rw [show scanStep (some cur, acc) a = (some (a :: cur), acc) from by simp [scanStep, ha]]
    rw [ih (a :: cur) acc (fun c hc => h c (by simp [hc]))]
    simp

theorem scan_quoted (x : String) (acc : List String) (h : ∀ c ∈ x.data, c ≠ '"') :
    (quoteIdent x).data.foldl scanStep (none, acc) = (none, acc ++ [x]) := by
  have hd : (quoteIdent x).data = '"' :: (x.data ++ ['"']) := by
    simp [quoteIdent, String.data_append]
  rw [hd]
  simp only [List.foldl_cons]
  rw [show scanStep (none, acc) '"' = (some [], acc) from by simp [scanStep]]
  rw [List.foldl_append, scan_some x.data [] acc h]
  simp only [List.foldl_cons, List.foldl_nil]
  rw [show scanStep (some (x.data.reverse ++ []), acc) '"'
      = (none, acc ++ [String.mk (x.data.reverse ++ []).reverse]) from by simp [scanStep]]
  simp [str_mk_data]

theorem scan_join (x : String) (l : List String) : ∀ (acc : List String),
    (∀ c ∈ x.data, c ≠ '"') → (∀ s2 ∈ l, ∀ c ∈ s2.data, c ≠ '"') →
    (pyJoin ", " ((x :: l).map quoteIdent)).data.foldl scanStep (none, acc)
      = (none, acc ++ (x :: l)) := by
  induction l generalizing x with
  | nil =>
    intro acc hx _
    show (quoteIdent x).data.foldl scanStep (none, acc) = _
    rw [scan_quoted x acc hx]
  | cons y ys ih =>
    intro acc hx hl
    have hstep : pyJoin ", " ((x :: y :: ys).map quoteIdent)
        = quoteIdent x ++ ", " ++ pyJoin ", " ((y :: ys).map quoteIdent) := rfl
    rw [hstep, String.data_append, String.data_append, List.foldl_append, List.foldl_append]
    rw [scan_quoted x acc hx]
    rw [scan_none (", " : String).data _ (by decide)]
    rw [ih y (acc ++ [x]) (hl y (by simp)) (fun s2 hs2 => hl s2 (by simp [hs2]))]
    simp

theorem extractQuoted_join (cols : List String) (hne : cols ≠ [])
    (h : ∀ s2 ∈ cols, ∀ c ∈ s2.data, c ≠ '"') :
    extractQuoted ("(" ++ pyJoin ", " (cols.map quoteIdent) ++ ")") = cols := by
  cases cols with
  | nil => exact absurd rfl hne
  | cons x l =>
    unfold extractQuoted
    rw [String.data_append, String.data_append, List.foldl_append, List.foldl_append]
    rw [scan_none ("(" : String).data [] (by decide)]
    rw [scan_join x l [] (h x (by simp)) (fun s2 hs2 => h s2 (by simp [hs2]))]
    rw [scan_none (")" : String).data _ (by decide)]
    simp

/-! ### The claims -/

/-- Claim C8: in both `merge_tmp_into_target_tbl` and
`print_merge_query`, when the optional staging overrides are omitted
the staging location is `(target_schema ++ "_TMP", target_table)`;
each component can be overridden independently, and overriding one
does not change the default computation of the other (the schema used
is always `temp_schema.getD (exasol_schema ++ "_TMP")` and the table
always `temp_tbl.getD exasol_table`, whatever the other argument is). -/
theorem c8_staging_location_defaults (s t : String) (ots ott : Option String) :
    tmpLocationMerge s t none none = (s ++ "_TMP", t)
    ∧ tmpLocationPrint s t none none = (s ++ "_TMP", t)
    ∧ (tmpLocationMerge s t ots ott).1 = ots.getD (s ++ "_TMP")
    ∧ (tmpLocationMerge s t ots ott).2 = ott.getD t
    ∧ (tmpLocationPrint s t ots ott).1 = ots.getD (s ++ "_TMP")
    ∧ (tmpLocationPrint s t ots ott).2 = ott.getD t := by
  cases ots <;> cases ott <;>
    simp [tmpLocationMerge, tmpLocationPrint]

/-- Claim C9: a completed run of `merge_tmp_into_target_tbl` leaves the
caller's dataframe with every column label stripped of leading and
trailing whitespace (the assignment `dataframe.columns =
dataframe.columns.str.strip()` at line 185 mutates the argument in
place), with the row data and the column order unchanged and no other
modification: the final dataframe state is exactly the original one
with `pyStrip` mapped over its column labels. -/
theorem c9_dataframe_mutation (df : DataFrame) (pk s t : String) (ots ott : Option String) :
    (mergeTmpIntoTargetTbl (fun _ => false) df pk s t ots ott).2.1
      = { cols := df.cols.map pyStrip, rows := df.rows }
    ∧ (mergeTmpIntoTargetTbl (fun _ => false) df pk s t ots ott).2.1.cols.length
      = df.cols.length := by
  constructor
  · simp [mergeTmpIntoTargetTbl]
  · simp [mergeTmpIntoTargetTbl]

/-- Claim C10: for every `env` other than `'prod'`, `'dev'` and `None`
the `deployment` function returns normally (falls through the whole
`elif` cascade) regardless of the `prod`/`dev` flags, and for
`env = None` it exits the script exactly when both flags are False. -/
theorem c10_deployment_gate (env : Option String) (prod dev : Bool)
    (h1 : env ≠ none) (h2 : env ≠ some "prod") (h3 : env ≠ some "dev") :
    deployment env prod dev = DeployOutcome.runs
    ∧ (deployment none prod dev = DeployOutcome.exits ↔ (prod = false ∧ dev = false)) := by
  constructor
  · cases prod <;> cases dev <;>
      simp [deployment, h1, h2, h3]
  · cases prod <;> cases dev <;>
      simp [deployment]

theorem c10_deployment_gate_witness :
    (some "staging" : Option String) ≠ none
    ∧ (some "staging" : Option String) ≠ some "prod"
    ∧ (some "staging" : Option String) ≠ some "dev"
    ∧ deployment (some "staging") false false = DeployOutcome.runs
    ∧ (deployment none false false = DeployOutcome.exits ↔ (false = false ∧ false = false)) := by
  have h := c10_deployment_gate (some "staging") false false
      (by decide) (by decide) (by decide)
  exact ⟨by decide, by decide, by decide, h.1, h.2⟩

set_option maxRecDepth 8192 in
/-- Claim C2 (evidence of the code bug): `merge_tmp_into_target_tbl`
performs no validation of an empty primary-key string.  With
`pk_columns = ""` the parsed list is `[""]`, the function synthesizes a
MERGE statement whose ON clause references the empty identifier
(`ON (target_tbl."" = tmp."")`), executes it, and completes; it does
not fail validation and it does emit SQL. -/
theorem c2_empty_pk_not_rejected :
    parsePk "" = [""]
    ∧ mergeQueryText ["BRAND"] "" "S" "T" "S_TMP" "T"
      = "MERGE INTO S.T target_tbl USING S_TMP.T tmp ON (target_tbl.\"\" = tmp.\"\") WHEN MATCHED THEN UPDATE SET target_tbl.\"UPDATE_TIMESTAMP\" = tmp.\"UPDATE_TIMESTAMP\", target_tbl.\"BRAND\" = tmp.\"BRAND\" WHEN NOT MATCHED THEN INSERT (\"INSERT_TIMESTAMP\", \"UPDATE_TIMESTAMP\", \"\", \"BRAND\") VALUES (tmp.\"INSERT_TIMESTAMP\", tmp.\"UPDATE_TIMESTAMP\", tmp.\"\", tmp.\"BRAND\");"
    ∧ DbAction.execute (mergeQueryText ["BRAND"] "" "S" "T" "S_TMP" "T")
      ∈ (mergeTmpIntoTargetTbl (fun _ => false) ⟨["BRAND"], []⟩ "" "S" "T" none none).1
    ∧ (mergeTmpIntoTargetTbl (fun _ => false) ⟨["BRAND"], []⟩ "" "S" "T" none none).2.2
      = Except.ok () := by
  refine ⟨rfl, rfl, ?_, rfl⟩
  simp [mergeTmpIntoTargetTbl, tmpLocationMerge]

/-- Claim C1: for every non-empty primary-key input string parsing to k
distinct trimmed column names, the ON clause of the statement
synthesized by `merge_tmp_into_target_tbl` (and by `print_merge_query`,
which builds the identical text) is the " AND "-join of exactly k
equality conjuncts `target_tbl."col" = tmp."col"`, one per primary-key
column, in the order the columns appear in the input string. -/
theorem c1_on_clause_conjuncts (dfCols : List String) (pk s t ts tt : String)
    (hpk : pk ≠ "") (hnd : (parsePk pk).Nodup) :
    mergeQueryText dfCols pk s t ts tt =
      "MERGE INTO " ++ s ++ "." ++ t ++ " target_tbl USING " ++ ts ++ "." ++ tt ++ " tmp ON ("
        ++ pyJoin " AND " ((parsePk pk).map eqAssign) ++ ") "
        ++ ("WHEN MATCHED THEN UPDATE SET " ++ pyJoin ", " ((updateSetCols dfCols pk).map eqAssign))
        ++ (" WHEN NOT MATCHED THEN INSERT (" ++ pyJoin ", " ((insertCols dfCols pk).map quoteIdent))
        ++ (") VALUES (" ++ pyJoin ", " ((insertCols dfCols pk).map tmpQual))
        ++ ");"
    ∧ printMergeQueryText dfCols pk s t ts tt = mergeQueryText dfCols pk s t ts tt
    ∧ ((parsePk pk).map eqAssign).length = (parsePk pk).length :=
  ⟨mergeQueryText_decomp dfCols pk s t ts tt, rfl, by simp⟩

set_option maxRecDepth 8192 in
theorem c1_on_clause_conjuncts_witness :
    (("BRAND, CATEGORY" : String) ≠ "")
    ∧ (parsePk "BRAND, CATEGORY").Nodup
    ∧ mergeQueryText ["BRAND", "CATEGORY", "PRICE", "INSERT_TIMESTAMP", "UPDATE_TIMESTAMP"]
        "BRAND, CATEGORY" "S" "T" "S_TMP" "T"
      = "MERGE INTO S.T target_tbl USING S_TMP.T tmp ON (target_tbl.\"BRAND\" = tmp.\"BRAND\" AND target_tbl.\"CATEGORY\" = tmp.\"CATEGORY\") WHEN MATCHED THEN UPDATE SET target_tbl.\"UPDATE_TIMESTAMP\" = tmp.\"UPDATE_TIMESTAMP\", target_tbl.\"PRICE\" = tmp.\"PRICE\" WHEN NOT MATCHED THEN INSERT (\"INSERT_TIMESTAMP\", \"UPDATE_TIMESTAMP\", \"BRAND\", \"CATEGORY\", \"PRICE\") VALUES (tmp.\"INSERT_TIMESTAMP\", tmp.\"UPDATE_TIMESTAMP\", tmp.\"BRAND\", tmp.\"CATEGORY\", tmp.\"PRICE\");"
    ∧ ((parsePk "BRAND, CATEGORY").map eqAssign).length = (parsePk "BRAND, CATEGORY").length := by
  have h := c1_on_clause_conjuncts
      ["BRAND", "CATEGORY", "PRICE", "INSERT_TIMESTAMP", "UPDATE_TIMESTAMP"]
      "BRAND, CATEGORY" "S" "T" "S_TMP" "T" (by decide) (by decide)
  refine ⟨by decide, by decide, ?_, h.2.2⟩
  rw [h.1]
  rfl

set_option maxRecDepth 8192 in
/-- Claim C3 (counterexample to the claim as stated): with primary-key
input string "UPDATE_TIMESTAMP", the UPDATE SET clause of the
synthesized statement sets the column UPDATE_TIMESTAMP, which is one of
the primary-key columns, so for this input the clause does set a
primary-key column. -/
theorem c3_counterexample :
    parsePk "UPDATE_TIMESTAMP" = ["UPDATE_TIMESTAMP"]
    ∧ "UPDATE_TIMESTAMP" ∈ updateSetCols ["BRAND"] "UPDATE_TIMESTAMP"
    ∧ mergeQueryText ["BRAND"] "UPDATE_TIMESTAMP" "S" "T" "S_TMP" "T"
      = "MERGE INTO S.T target_tbl USING S_TMP.T tmp ON (target_tbl.\"UPDATE_TIMESTAMP\" = tmp.\"UPDATE_TIMESTAMP\") WHEN MATCHED THEN UPDATE SET target_tbl.\"UPDATE_TIMESTAMP\" = tmp.\"UPDATE_TIMESTAMP\", target_tbl.\"BRAND\" = tmp.\"BRAND\" WHEN NOT MATCHED THEN INSERT (\"INSERT_TIMESTAMP\", \"UPDATE_TIMESTAMP\", \"UPDATE_TIMESTAMP\", \"BRAND\") VALUES (tmp.\"INSERT_TIMESTAMP\", tmp.\"UPDATE_TIMESTAMP\", tmp.\"UPDATE_TIMESTAMP\", tmp.\"BRAND\");" :=
  ⟨rfl, by decide, rfl⟩

/-- Claim C3 (amended: provided the update-timestamp column is not one
of the primary-key columns): the UPDATE SET clause of the synthesized
statement sets the update-timestamp column exactly once, never sets a
primary-key column or the insertion-timestamp column, and additionally
sets every dataframe column that is neither a primary-key column nor
one of the two reserved timestamp columns, in dataframe order. -/
theorem c3_update_clause (dfCols : List String) (pk s t ts tt : String)
    (hUT : "UPDATE_TIMESTAMP" ∉ parsePk pk) :
    mergeQueryText dfCols pk s t ts tt =
      "MERGE INTO " ++ s ++ "." ++ t ++ " target_tbl USING " ++ ts ++ "." ++ tt ++ " tmp ON ("
        ++ pyJoin " AND " ((parsePk pk).map eqAssign) ++ ") "
        ++ ("WHEN MATCHED THEN UPDATE SET " ++ pyJoin ", " ((updateSetCols dfCols pk).map eqAssign))
        ++ (" WHEN NOT MATCHED THEN INSERT (" ++ pyJoin ", " ((insertCols dfCols pk).map quoteIdent))
        ++ (") VALUES (" ++ pyJoin ", " ((insertCols dfCols pk).map tmpQual))
        ++ ");"
    ∧ (updateSetCols dfCols pk).count "UPDATE_TIMESTAMP" = 1
    ∧ (∀ c ∈ updateSetCols dfCols pk, c ∉ parsePk pk ∧ c ≠ "INSERT_TIMESTAMP")
    ∧ updateSetCols dfCols pk = "UPDATE_TIMESTAMP"
        :: (dfCols.map pyStrip).filter (fun c => !((parsePk pk).contains c)
              && !(c == "INSERT_TIMESTAMP") && !(c == "UPDATE_TIMESTAMP")) := by
  refine ⟨mergeQueryText_decomp dfCols pk s t ts tt, ?_, ?_, ?_⟩
  · have h0 : (colsMerge dfCols pk).count "UPDATE_TIMESTAMP" = 0 :=
      List.count_eq_zero.mpr (ut_not_mem_colsMerge dfCols pk)
    simp [updateSetCols, List.count_cons, h0]
  · intro c hc
    unfold updateSetCols at hc
    rcases List.mem_cons.mp hc with rfl | hc2
    · exact ⟨hUT, by decide⟩
    · exact ⟨(mem_colsMerge hc2).1, (mem_colsMerge hc2).2.1⟩
  · unfold updateSetCols
    rw [colsMerge_filter]

set_option maxRecDepth 8192 in
theorem c3_update_clause_witness :
    ("UPDATE_TIMESTAMP" ∉ parsePk "BRAND")
    ∧ mergeQueryText ["BRAND", "PRICE"] "BRAND" "S" "T" "S_TMP" "T"
      = "MERGE INTO S.T target_tbl USING S_TMP.T tmp ON (target_tbl.\"BRAND\" = tmp.\"BRAND\") WHEN MATCHED THEN UPDATE SET target_tbl.\"UPDATE_TIMESTAMP\" = tmp.\"UPDATE_TIMESTAMP\", target_tbl.\"PRICE\" = tmp.\"PRICE\" WHEN NOT MATCHED THEN INSERT (\"INSERT_TIMESTAMP\", \"UPDATE_TIMESTAMP\", \"BRAND\", \"PRICE\") VALUES (tmp.\"INSERT_TIMESTAMP\", tmp.\"UPDATE_TIMESTAMP\", tmp.\"BRAND\", tmp.\"PRICE\");"
    ∧ (updateSetCols ["BRAND", "PRICE"] "BRAND").count "UPDATE_TIMESTAMP" = 1
    ∧ (∀ c ∈ updateSetCols ["BRAND", "PRICE"] "BRAND",
        c ∉ parsePk "BRAND" ∧ c ≠ "INSERT_TIMESTAMP")
    ∧ updateSetCols ["BRAND", "PRICE"] "BRAND" = ["UPDATE_TIMESTAMP", "PRICE"] := by
  have h := c3_update_clause ["BRAND", "PRICE"] "BRAND" "S" "T" "S_TMP" "T" (by decide)
  refine ⟨by decide, ?_, h.2.1, h.2.2.1, by decide⟩
  rw [h.1]
  rfl

/-- Claim C4: the INSERT column list of the synthesized statement is
`[INSERT_TIMESTAMP, UPDATE_TIMESTAMP]` followed by the primary-key
columns in input order followed by the remaining non-reserved columns
in dataframe order, the VALUES list is the identical list in the
identical order with each column staging-qualified (`tmp."col"`), and
(round trip) collecting the quoted identifiers of the generated insert
column list recovers the original ordered column list. -/
theorem c4_insert_clause (dfCols : List String) (pk s t ts tt : String)
    (hq : ∀ s2 ∈ insertCols dfCols pk, ∀ c ∈ s2.data, c ≠ '"') :
    mergeQueryText dfCols pk s t ts tt =
      "MERGE INTO " ++ s ++ "." ++ t ++ " target_tbl USING " ++ ts ++ "." ++ tt ++ " tmp ON ("
        ++ pyJoin " AND " ((parsePk pk).map eqAssign) ++ ") "
        ++ ("WHEN MATCHED THEN UPDATE SET " ++ pyJoin ", " ((updateSetCols dfCols pk).map eqAssign))
        ++ (" WHEN NOT MATCHED THEN INSERT (" ++ pyJoin ", " ((insertCols dfCols pk).map quoteIdent))
        ++ (") VALUES (" ++ pyJoin ", " ((insertCols dfCols pk).map tmpQual))
        ++ ");"
    ∧ insertCols dfCols pk
        = ["INSERT_TIMESTAMP", "UPDATE_TIMESTAMP"] ++ parsePk pk ++ colsMerge dfCols pk
    ∧ extractQuoted ("(" ++ pyJoin ", " ((insertCols dfCols pk).map quoteIdent) ++ ")")
        = insertCols dfCols pk := by
  refine ⟨mergeQueryText_decomp dfCols pk s t ts tt, by simp [insertCols], ?_⟩
  exact extractQuoted_join _ (by simp [insertCols]) hq

set_option maxRecDepth 8192 in
theorem c4_insert_clause_witness :
    (∀ s2 ∈ insertCols ["BRAND", "PRICE"] "BRAND", ∀ c ∈ s2.data, c ≠ '"')
    ∧ mergeQueryText ["BRAND", "PRICE"] "BRAND" "S2" "T2" "S2_TMP" "T2"
      = "MERGE INTO S2.T2 target_tbl USING S2_TMP.T2 tmp ON (target_tbl.\"BRAND\" = tmp.\"BRAND\") WHEN MATCHED THEN UPDATE SET target_tbl.\"UPDATE_TIMESTAMP\" = tmp.\"UPDATE_TIMESTAMP\", target_tbl.\"PRICE\" = tmp.\"PRICE\" WHEN NOT MATCHED THEN INSERT (\"INSERT_TIMESTAMP\", \"UPDATE_TIMESTAMP\", \"BRAND\", \"PRICE\") VALUES (tmp.\"INSERT_TIMESTAMP\", tmp.\"UPDATE_TIMESTAMP\", tmp.\"BRAND\", tmp.\"PRICE\");"
    ∧ insertCols ["BRAND", "PRICE"] "BRAND"
      = ["INSERT_TIMESTAMP", "UPDATE_TIMESTAMP", "BRAND", "PRICE"]
    ∧ extractQuoted
        ("(" ++ pyJoin ", " ((insertCols ["BRAND", "PRICE"] "BRAND").map quoteIdent) ++ ")")
      = insertCols ["BRAND", "PRICE"] "BRAND" := by
  have h := c4_insert_clause ["BRAND", "PRICE"] "BRAND" "S2" "T2" "S2_TMP" "T2" (by decide)
  refine ⟨by decide, ?_, by decide, h.2.2⟩
  rw [h.1]
  rfl

/-- Claim C5: adding leading or trailing whitespace to the dataframe
column labels or to the elements of the primary-key input string does
not change the SQL text synthesized by `merge_tmp_into_target_tbl`:
the builder reads the dataframe only through the stripped column
labels and the primary-key string only through its split-and-stripped
element list, and stripping absorbs any whitespace padding on either
side. -/
theorem c5_trim_invariance (dfCols : List String) (pk s t ts tt : String)
    (dpads pkpads : List (String × String))
    (hdl : dpads.length = dfCols.length)
    (hdw : ∀ p ∈ dpads, isWsOnly p.1 = true ∧ isWsOnly p.2 = true)
    (hpl : pkpads.length = (pySplit ',' pk).length)
    (hpw : ∀ p ∈ pkpads, isWsOnly p.1 = true ∧ isWsOnly p.2 = true) :
    mergeQueryText (List.zipWith padWith dpads dfCols)
        (pyJoin "," (List.zipWith padWith pkpads (pySplit ',' pk))) s t ts tt
      = mergeQueryText dfCols pk s t ts tt :=
  mergeQueryText_congr s t ts tt
    (zipWith_pad_strip dpads dfCols hdl hdw)
    (parsePk_padded pk pkpads hpl hpw)

set_option maxRecDepth 8192 in
theorem c5_trim_invariance_witness :
    ([((" " : String), ("" : String)), ("", "  ")].length = (["BRAND", "PRICE"] : List String).length)
    ∧ (∀ p ∈ [((" " : String), ("" : String)), ("", "  ")],
        isWsOnly p.1 = true ∧ isWsOnly p.2 = true)
    ∧ ([(("" : String), (" " : String)), (" ", "")].length
        = (pySplit ',' "BRAND,CATEGORY").length)
    ∧ (∀ p ∈ [(("" : String), (" " : String)), (" ", "")],
        isWsOnly p.1 = true ∧ isWsOnly p.2 = true)
    ∧ mergeQueryText
        (List.zipWith padWith [((" " : String), ("" : String)), ("", "  ")] ["BRAND", "PRICE"])
        (pyJoin ","
          (List.zipWith padWith [(("" : String), (" " : String)), (" ", "")]
            (pySplit ',' "BRAND,CATEGORY")))
        "S" "T" "S_TMP" "T"
      = mergeQueryText ["BRAND", "PRICE"] "BRAND,CATEGORY" "S" "T" "S_TMP" "T" :=
  ⟨by decide, by decide, by decide, by decide,
    c5_trim_invariance ["BRAND", "PRICE"] "BRAND,CATEGORY" "S" "T" "S_TMP" "T"
      [((" " : String), ("" : String)), ("", "  ")]
      [(("" : String), (" " : String)), (" ", "")]
      (by decide) (by decide) (by decide) (by decide)⟩

set_option maxRecDepth 8192 in
/-- Claim C6 (counterexample to the claim as stated): the dataframe
column lists ["A", "B"] and ["B", "A"] carry the same set of trimmed
column names, yet `print_merge_query` run against a staging table whose
columns come back in the order ["B", "A"] prints a different statement
text than `merge_tmp_into_target_tbl` executes for a dataframe with
columns ["A", "B"]: the column order, not just the column set, enters
the generated text. -/
theorem c6_counterexample :
    (["A", "B"].map pyStrip).toFinset = (["B", "A"].map pyStrip).toFinset
    ∧ printMergeQueryText ["B", "A"] "PK" "S" "T" "S_TMP" "T"
      ≠ mergeQueryText ["A", "B"] "PK" "S" "T" "S_TMP" "T" := by
  constructor
  · decide
  · decide

/-- Claim C6 (amended: with the same ordered sequence of trimmed column
names): for the same primary-key input string, target schema/table and
staging overrides, if the staging table's fetched columns strip to the
same ordered list as the dataframe's columns, then `print_merge_query`
prints exactly the MERGE statement text that `merge_tmp_into_target_tbl`
executes; and `print_merge_query` only connects, fetches the staging
table and prints — it performs no truncate (`execute`), no bulk load
(`import_from_pandas`), no merge execution and no count query. -/
theorem c6_print_matches_merge (dfM fetched : List String) (rows : List (List String))
    (pk s t : String) (ots ott : Option String)
    (h : fetched.map pyStrip = dfM.map pyStrip) :
    printMergeQuery fetched pk s t ots ott
      = [DbAction.connect,
         DbAction.exportDf ("SELECT * FROM " ++ (tmpLocationPrint s t ots ott).1 ++ "."
            ++ (tmpLocationPrint s t ots ott).2),
         DbAction.printOut (mergeQueryText dfM pk s t (tmpLocationMerge s t ots ott).1
            (tmpLocationMerge s t ots ott).2)]
    ∧ DbAction.execute (mergeQueryText dfM pk s t (tmpLocationMerge s t ots ott).1
          (tmpLocationMerge s t ots ott).2)
        ∈ (mergeTmpIntoTargetTbl (fun _ => false) ⟨dfM, rows⟩ pk s t ots ott).1
    ∧ (∀ sql, DbAction.execute sql ∉ printMergeQuery fetched pk s t ots ott)
    ∧ (∀ d loc, DbAction.importDf d loc ∉ printMergeQuery fetched pk s t ots ott) := by
  have hloc : tmpLocationPrint s t ots ott = tmpLocationMerge s t ots ott := rfl
  have htext : printMergeQueryText fetched pk s t (tmpLocationPrint s t ots ott).1
        (tmpLocationPrint s t ots ott).2
      = mergeQueryText dfM pk s t (tmpLocationMerge s t ots ott).1
        (tmpLocationMerge s t ots ott).2 := by
    rw [printMergeQueryText_eq, hloc]
    exact mergeQueryText_congr _ _ _ _ h rfl
  refine ⟨?_, ?_, ?_, ?_⟩
  · simp only [printMergeQuery]
    rw [htext, hloc]
  · simp [mergeTmpIntoTargetTbl]
  · intro sql
    simp [printMergeQuery]
  · intro d loc
    simp [printMergeQuery]

set_option maxRecDepth 8192 in
theorem c6_print_matches_merge_witness :
    ((["BRAND", "PRICE"] : List String).map pyStrip = (["BRAND", "PRICE"] : List String).map pyStrip)
    ∧ printMergeQuery ["BRAND", "PRICE"] "BRAND" "S" "T" none none
      = [DbAction.connect,
         DbAction.exportDf ("SELECT * FROM " ++ (tmpLocationPrint "S" "T" none none).1 ++ "."
            ++ (tmpLocationPrint "S" "T" none none).2),
         DbAction.printOut (mergeQueryText ["BRAND", "PRICE"] "BRAND" "S" "T"
            (tmpLocationMerge "S" "T" none none).1 (tmpLocationMerge "S" "T" none none).2)]
    ∧ DbAction.execute (mergeQueryText ["BRAND", "PRICE"] "BRAND" "S" "T"
          (tmpLocationMerge "S" "T" none none).1 (tmpLocationMerge "S" "T" none none).2)
        ∈ (mergeTmpIntoTargetTbl (fun _ => false) ⟨["BRAND", "PRICE"], []⟩ "BRAND" "S" "T"
            none none).1
    ∧ (∀ sql, DbAction.execute sql ∉ printMergeQuery ["BRAND", "PRICE"] "BRAND" "S" "T" none none)
    ∧ (∀ d loc,
        DbAction.importDf d loc ∉ printMergeQuery ["BRAND", "PRICE"] "BRAND" "S" "T" none none) := by
  have h := c6_print_matches_merge ["BRAND", "PRICE"] ["BRAND", "PRICE"] [] "BRAND" "S" "T"
      none none rfl
  exact ⟨rfl, h.1, h.2.1, h.2.2.1, h.2.2.2⟩

/-- Claim C7: any failure of one of the four external calls of
`merge_tmp_into_target_tbl` (0 = truncate, 1 = bulk load, 2 = merge
execution, 3 = verification count) propagates to the caller as that
step's error (the function body catches nothing), no retry happens and
no subsequent step is attempted: the trace is exactly the first k+1
calls of the successful run. -/
theorem c7_failure_propagation (fails : Nat → Bool) (df : DataFrame) (pk s t : String)
    (ots ott : Option String) (k : Nat) (hk : k < 4) (hf : fails k = true)
    (hprev : ∀ j, j < k → fails j = false) :
    (mergeTmpIntoTargetTbl fails df pk s t ots ott).2.2 = Except.error k
    ∧ (mergeTmpIntoTargetTbl fails df pk s t ots ott).1
        = ((mergeTmpIntoTargetTbl (fun _ => false) df pk s t ots ott).1).take (k + 1)
    ∧ (mergeTmpIntoTargetTbl fails df pk s t ots ott).1.length = k + 1 := by
  interval_cases k
  · refine ⟨?_, ?_, ?_⟩ <;> simp [mergeTmpIntoTargetTbl, hf]
  · have h0 := hprev 0 (by omega)
    refine ⟨?_, ?_, ?_⟩ <;> simp [mergeTmpIntoTargetTbl, hf, h0]
  · have h0 := hprev 0 (by omega)
    have h1 := hprev 1 (by omega)
    refine ⟨?_, ?_, ?_⟩ <;> simp [mergeTmpIntoTargetTbl, hf, h0, h1]
  · have h0 := hprev 0 (by omega)
    have h1 := hprev 1 (by omega)
    have h2 := hprev 2 (by omega)
    refine ⟨?_, ?_, ?_⟩ <;> simp [mergeTmpIntoTargetTbl, hf, h0, h1, h2]

theorem c7_failure_propagation_witness :
    (2 < 4)
    ∧ ((fun n => n == 2) 2 = true)
    ∧ (∀ j, j < 2 → (fun n => n == 2) j = false)
    ∧ (mergeTmpIntoTargetTbl (fun n => n == 2) ⟨["BRAND"], []⟩ "PK" "S" "T" none none).2.2
      = Except.error 2
    ∧ (mergeTmpIntoTargetTbl (fun n => n == 2) ⟨["BRAND"], []⟩ "PK" "S" "T" none none).1
      = ((mergeTmpIntoTargetTbl (fun _ => false) ⟨["BRAND"], []⟩ "PK" "S" "T" none none).1).take 3
    ∧ (mergeTmpIntoTargetTbl (fun n => n == 2) ⟨["BRAND"], []⟩ "PK" "S" "T" none none).1.length
      = 3 := by
  have hprev : ∀ j, j < 2 → (fun n => n == 2) j = false := by
    intro j hj
    interval_cases j <;> rfl
  have h := c7_failure_propagation (fun n => n == 2) ⟨["BRAND"], []⟩ "PK" "S" "T" none none 2
      (by omega) (by rfl) hprev
  exact ⟨by omega, by rfl, hprev, h.1, h.2.1, h.2.2⟩

end BiUtils
